import Mathlib

/-!
Shallow embedding of the offer-resolution core of `SymproveCombined.py`.

Conventions of the embedding:
* Python strings are Lean `String`s (lists of unicode code points); Python's
  `str.lower()`, `str.strip()` and `" ".join` are modelled by `lowerStr`,
  `trimStr` and `joinSep` over the character lists (identical on the ASCII
  data the program handles).
* Python floats are idealised as exact rationals `ℚ`; a nullable float is
  `Option ℚ`.  Python truthiness of a price (`if v["price"]`) is `truthy`:
  `none` and `some 0` are falsy.
* The regular expressions of the source are compiled by hand into
  executable scanners with Python `re.search` semantics (leftmost match,
  alternatives tried in pattern order, `\b` = word boundary, `\s*` and
  `\d+` greedy).  `\w` is modelled as ASCII alphanumeric or underscore.
* Fallible operations return `Option`; the `try/except` wrappers of the
  source never fire inside the modelled pure fragment.
-/

/-- Structural-recursion Euclidean gcd with explicit fuel, so that concrete
values reduce inside the kernel (`Nat.gcd` itself is defined by well-founded
recursion and does not). -/
def sgcd : ℕ → ℕ → ℕ → ℕ
  | 0, a, b => if a = 0 then b else 1
  | f + 1, a, b => if a = 0 then b else sgcd f (b % a) a

theorem sgcd_eq : ∀ (f a b : ℕ), a ≤ f → sgcd f a b = Nat.gcd a b := by
  intro f
  induction f with
  | zero =>
      intro a b ha
      have : a = 0 := Nat.le_zero.mp ha
      subst this
      simp [sgcd]
  | succ f ih =>
      intro a b ha
      by_cases h0 : a = 0
      · subst h0; simp [sgcd]
      · have hlt : b % a < a := Nat.mod_lt _ (Nat.pos_of_ne_zero h0)
        have hle : b % a ≤ f := Nat.lt_succ_iff.mp (Nat.lt_of_lt_of_le hlt ha)
        have := ih (b % a) a hle
        simp only [sgcd, h0, if_false]
        rw [this, Nat.gcd_rec a b]

/-- Kernel-reducible gcd. -/
def ngcd (a b : ℕ) : ℕ := sgcd a a b

theorem ngcd_eq (a b : ℕ) : ngcd a b = Nat.gcd a b := sgcd_eq a a b (Nat.le_refl a)

theorem qmk_den_nz (n : ℤ) (d : ℕ) (hd : ¬d = 0) : d / ngcd n.natAbs d ≠ 0 := by
  have hdp : 0 < d := Nat.pos_of_ne_zero hd
  rw [ngcd_eq]
  have hgp : 0 < Nat.gcd n.natAbs d := Nat.gcd_pos_of_pos_right _ hdp
  have h1 : Nat.gcd n.natAbs d ∣ d := Nat.gcd_dvd_right _ _
  have := Nat.div_pos (Nat.le_of_dvd hdp h1) hgp
  exact Nat.pos_iff_ne_zero.mp this

theorem qmk_num_natAbs (n : ℤ) (d : ℕ) :
    (if n < 0 then -((n.natAbs / ngcd n.natAbs d : ℕ) : ℤ)
      else ((n.natAbs / ngcd n.natAbs d : ℕ) : ℤ)).natAbs = n.natAbs / ngcd n.natAbs d := by
  by_cases hn : n < 0
  · rw [if_pos hn, Int.natAbs_neg, Int.natAbs_ofNat]
  · rw [if_neg hn, Int.natAbs_ofNat]

theorem qmk_reduced (n : ℤ) (d : ℕ) (hd : ¬d = 0) :
    (if n < 0 then -((n.natAbs / ngcd n.natAbs d : ℕ) : ℤ)
      else ((n.natAbs / ngcd n.natAbs d : ℕ) : ℤ)).natAbs.Coprime (d / ngcd n.natAbs d) := by
  rw [qmk_num_natAbs, ngcd_eq]
  exact Nat.coprime_div_gcd_div_gcd
    (Nat.gcd_pos_of_pos_right _ (Nat.pos_of_ne_zero hd))

/-- Build the rational `n / d` in lowest terms using the kernel-reducible
gcd, so that concrete rational values compute by `decide`.  `d = 0` gives
`0` (never used with `d = 0` below). -/
def qmk (n : ℤ) (d : ℕ) : ℚ :=
  if hd : d = 0 then 0
  else
    Rat.mk' (if n < 0 then -((n.natAbs / ngcd n.natAbs d : ℕ) : ℤ)
      else ((n.natAbs / ngcd n.natAbs d : ℕ) : ℤ)) (d / ngcd n.natAbs d)
      (qmk_den_nz n d hd) (qmk_reduced n d hd)

/-- `qmk n d` really is the rational `n / d`. -/
theorem qmk_eq (n : ℤ) (d : ℕ) (hd : d ≠ 0) : qmk n d = (n : ℚ) / (d : ℚ) := by
  rw [qmk, dif_neg hd]
  have hg : ngcd n.natAbs d = Nat.gcd n.natAbs d := ngcd_eq _ _
  have hgp : 0 < Nat.gcd n.natAbs d := Nat.gcd_pos_of_pos_right _ (Nat.pos_of_ne_zero hd)
  have hgz : (Nat.gcd n.natAbs d : ℤ) ≠ 0 := by
    exact_mod_cast Nat.pos_iff_ne_zero.mp hgp
  rw [Rat.mk'_eq_divInt]
  have hnum : (if n < 0 then -((n.natAbs / ngcd n.natAbs d : ℕ) : ℤ)
      else ((n.natAbs / ngcd n.natAbs d : ℕ) : ℤ)) * (Nat.gcd n.natAbs d : ℤ) = n := by
    rw [hg]
    have h1 : Nat.gcd n.natAbs d ∣ n.natAbs := Nat.gcd_dvd_left _ _
    by_cases hn : n < 0
    · simp only [hn, if_true]
      rw [neg_mul]
      rw [← Int.ofNat_mul, Nat.div_mul_cancel h1]
      omega
    · simp only [hn, if_false]
      rw [← Int.ofNat_mul, Nat.div_mul_cancel h1]
      omega
  have hden2 : ((d / ngcd n.natAbs d : ℕ) : ℤ) * (Nat.gcd n.natAbs d : ℤ) = (d : ℤ) := by
    rw [hg, ← Int.ofNat_mul, Nat.div_mul_cancel (Nat.gcd_dvd_right _ _)]
  calc Rat.divInt _ _
      = Rat.divInt ((if n < 0 then -((n.natAbs / ngcd n.natAbs d : ℕ) : ℤ)
          else ((n.natAbs / ngcd n.natAbs d : ℕ) : ℤ)) * (Nat.gcd n.natAbs d : ℤ))
          (((d / ngcd n.natAbs d : ℕ) : ℤ) * (Nat.gcd n.natAbs d : ℤ)) := by
        rw [Rat.divInt_mul_right hgz]
    _ = Rat.divInt n d := by rw [hnum, hden2]
    _ = (n : ℚ) / (d : ℚ) := by
        rw [Rat.divInt_eq_div]
        norm_num

/-- Python `\w` word character (ASCII fragment). -/
def isWordChar (c : Char) : Bool := c.isAlphanum || c == '_'

/-- Lowercase every character, as Python `str.lower()` on ASCII data. -/
def lowerStr (s : String) : String := ⟨s.data.map Char.toLower⟩

/-- Strip leading and trailing whitespace, as Python `str.strip()`. -/
def trimStr (s : String) : String :=
  ⟨((s.data.dropWhile Char.isWhitespace).reverse.dropWhile Char.isWhitespace).reverse⟩

/-- Python `sep.join(parts)`. -/
def joinSep (sep : String) : List String → String
  | [] => ""
  | [x] => x
  | x :: xs => x ++ sep ++ joinSep sep xs

/-- Does `pat` occur at position `i` of `s`? -/
def matchesAt (pat s : List Char) (i : ℕ) : Bool := pat.isPrefixOf (s.drop i)

/-- Is the character at position `i` a word character (`false` off the ends)? -/
def wordCharAt (s : List Char) (i : ℕ) : Bool := isWordChar (s.getD i ' ')

/-- Regex `\bpat\b` matches at position `i` (for a `pat` that starts and ends
with a word character, which is the case for every bounded keyword of the
source). -/
def wordMatchAt (pat s : List Char) (i : ℕ) : Bool :=
  matchesAt pat s i && (i == 0 || !wordCharAt s (i - 1)) && !wordCharAt s (i + pat.length)

/-- Regex search for `\bpat\b` anywhere in `s`. -/
def wordSearchB (pat : String) (s : List Char) : Bool :=
  (List.range (s.length + 1)).any (fun i => wordMatchAt pat.data s i)

/-- Plain substring search, Python's `pat in s` / `re.search` on a literal. -/
def containsSubL (pat s : List Char) : Bool :=
  (List.range (s.length + 1)).any (fun i => matchesAt pat s i)

/-- Plain substring search on strings. -/
def containsStr (pat s : String) : Bool := containsSubL pat.data s.data

/-- Value of a list of decimal digit characters. -/
def digitsToNat (ds : List Char) : ℕ := ds.foldl (fun a c => a * 10 + (c.toNat - 48)) 0

/-- Value of the leftmost match of `\d{1,3}(?:[,\d]*)(?:\.\d+)?` on a
comma-free string whose head is a digit: the maximal digit run, then an
optional fraction part (greedy). -/
def tokenVal (l : List Char) : ℚ :=
  match l.dropWhile Char.isDigit with
  | '.' :: r2 =>
      if (r2.takeWhile Char.isDigit).isEmpty then qmk (digitsToNat (l.takeWhile Char.isDigit)) 1
      else
        qmk (digitsToNat (l.takeWhile Char.isDigit) * 10 ^ (r2.takeWhile Char.isDigit).length
            + digitsToNat (r2.takeWhile Char.isDigit))
          (10 ^ (r2.takeWhile Char.isDigit).length)
  | _ => qmk (digitsToNat (l.takeWhile Char.isDigit)) 1

/-- Scan for the first digit and read the numeric token that starts there;
`none` when the input has no digit.  This is `re.search` of the pattern
`\d{1,3}(?:[,\d]*)(?:\.\d+)?` on a comma-free string. -/
def scanNum : List Char → Option ℚ
  | [] => none
  | c :: cs => if c.isDigit then some (tokenVal (c :: cs)) else scanNum cs

/-- `parse_price_str` (SymproveCombined.py lines 42-53): remove commas, then
return the value of the first numeric token, or `None` when absent. -/
def parse_price_str : Option String → Option ℚ
  | none => none
  | some s => scanNum (s.data.filter (fun c => !(c == ',')))

/-- First tier of `normalize_pack_text`: `\btwin\b`, `\b2-?pack\b` or
`\bdouble\b` in the lowered text. -/
def twinTier (t : List Char) : Bool :=
  wordSearchB "twin" t || wordSearchB "2pack" t || wordSearchB "2-pack" t ||
    wordSearchB "double" t

/-- Second tier of `normalize_pack_text`: `\bsingle\b`, `\b1-?pack\b` or
the unbounded literal `pack of 1`. -/
def singleTier (t : List Char) : Bool :=
  wordSearchB "single" t || wordSearchB "1pack" t || wordSearchB "1-pack" t ||
    containsSubL "pack of 1".data t

/-- Alternatives of the secondary pattern `(single|twin|2x|2 x|1x|1 x)`, in
pattern order. -/
def packAlts : List String := ["single", "twin", "2x", "2 x", "1x", "1 x"]

/-- Leftmost regex match of an alternation of literals: positions are tried
left to right, and at each position the alternatives in pattern order; the
result is `m.group(0)`. -/
def altFindAux (alts : List String) : List Char → Option String
  | [] => none
  | l@(_ :: cs) =>
      match alts.find? (fun p => p.data.isPrefixOf l) with
      | some p => some p
      | none => altFindAux alts cs

/-- `normalize_pack_text` (SymproveCombined.py lines 324-338). -/
def normalize_pack_text (text : String) : String :=
  if text.data.isEmpty then "N/A"
  else
    let t := (lowerStr text).data
    if twinTier t then "Twin Pack"
    else if singleTier t then "Single Pack"
    else
      match altFindAux packAlts t with
      | some g => if containsStr "twin" g || containsStr "2" g then "Twin Pack" else "Single Pack"
      | none => trimStr text

/-- `SUB_KEYWORDS` of `is_explicit_subscription`. -/
def SUB_KEYWORDS : List String :=
  ["subscribe", "subscription", "subscribe & save", "save", "autoship", "recurring"]

/-- `ONE_KEYWORDS` of `is_explicit_onetime`. -/
def ONE_KEYWORDS : List String :=
  ["one-time", "one time", "one-off", "single", "non-sub", "oneoff"]

/-- `is_explicit_subscription` (SymproveCombined.py lines 340-348).  The
option map is the Python dict as a list of key-value pairs in insertion
order. -/
def is_explicit_subscription (text : String) (option_map : List (String × String)) : Bool :=
  let t := lowerStr text
  SUB_KEYWORDS.any (fun k => containsStr k t) ||
    option_map.any (fun kv =>
      !kv.2.data.isEmpty &&
        SUB_KEYWORDS.any (fun s => containsStr s (lowerStr (kv.1 ++ " " ++ kv.2))))

/-- `is_explicit_onetime` (SymproveCombined.py lines 350-358). -/
def is_explicit_onetime (text : String) (option_map : List (String × String)) : Bool :=
  let t := lowerStr text
  ONE_KEYWORDS.any (fun k => containsStr k t) ||
    option_map.any (fun kv =>
      !kv.2.data.isEmpty &&
        ONE_KEYWORDS.any (fun s => containsStr s (lowerStr (kv.1 ++ " " ++ kv.2))))

/-- Python truthiness of a nullable price: `None` and `0.0` are falsy. -/
def truthy : Option ℚ → Bool
  | none => false
  | some q => decide (q ≠ 0)

/-- Cents of a price, rounding the exact rational to the nearest integer
(idealisation of CPython's `f"{p:.2f}"` on the binary float; all values in
this development are exact multiples of a cent, where the two agree). -/
def centsOf (q : ℚ) : ℤ := Int.fdiv (200 * q.num + (q.den : ℤ)) (2 * (q.den : ℤ))

/-- The local `fmt` helper of `extract_symprove_products`:
`"N/A"` for `None`, else `f"£{p:.2f}"`. -/
def fmt : Option ℚ → String
  | none => "N/A"
  | some q =>
      let n := centsOf q
      let m := n.natAbs
      "£" ++ (if n < 0 then "-" else "") ++ Nat.repr (m / 100) ++ "." ++
        (if m % 100 < 10 then "0" else "") ++ Nat.repr (m % 100)

/-- A raw feed variant, fields of the Shopify JSON consumed by the resolver
(`variant.get(...)`); the numeric `price`/`compare_at_price` are the
already-parsed outputs of `parse_float_safe`, idealised as rationals. -/
structure FeedVariant where
  fid : Option ℤ
  title : Option String
  price : Option ℚ
  compare_at_price : Option ℚ
  option1 : Option String
  option2 : Option String
  option3 : Option String
deriving DecidableEq

/-- A feed product (`prod.get(...)`); `options` is the list of raw option
name strings (the `opt.get("name")` of each option dict), `images` the list
of `src` strings. -/
structure FeedProduct where
  title : Option String
  handle : Option String
  body_html : Option String
  images : List String
  options : List String
  variants : List FeedVariant
deriving DecidableEq

/-- The per-variant record built at SymproveCombined.py lines 398-421. -/
structure RawVariant where
  vid : Option ℤ
  combined : String
  options : List (String × String)
  title : String
  price : Option ℚ
  compare : Option ℚ
  explicit_sub : Bool
  explicit_one : Bool
deriving DecidableEq

/-- Option name for slot `i` (0-based): entry `i` of the extracted names
(`opt.get("name") or "Option"`), or the fallback `option{i+1}`. -/
def optName (names : List String) (i : ℕ) (dflt : String) : String :=
  match names.get? i with
  | some nm => if nm.data.isEmpty then "Option" else nm
  | none => dflt

/-- Python dict assignment `m[k] = v`: overwrite in place, else append. -/
def dictInsert (m : List (String × String)) (k v : String) : List (String × String) :=
  if m.any (fun kv => kv.1 == k) then m.map (fun kv => if kv.1 == k then (k, v) else kv)
  else m ++ [(k, v)]

/-- Lines 399-421: build the option map, the combined text and the two
explicit-intent flags for one variant. -/
def mkRawVariant (pname : String) (names : List String) (v : FeedVariant) : RawVariant :=
  let om1 := dictInsert [] (optName names 0 "option1") (v.option1.getD "")
  let om2 := dictInsert om1 (optName names 1 "option2") (v.option2.getD "")
  let om3 := dictInsert om2 (optName names 2 "option3") (v.option3.getD "")
  let vtitle := trimStr (v.title.getD "")
  let combined := trimStr (joinSep " " ([pname, vtitle] ++ om3.map (fun kv => kv.2)))
  { vid := v.fid, combined := combined, options := om3, title := vtitle,
    price := v.price, compare := v.compare_at_price,
    explicit_sub := is_explicit_subscription combined om3,
    explicit_one := is_explicit_onetime combined om3 }

/-- The `variant_list` of one product. -/
def variant_list (pname : String) (names : List String) (vs : List FeedVariant) :
    List RawVariant :=
  vs.map (mkRawVariant pname names)

/-- Regex `flavour|flavor|taste|variant` (case-insensitive) on an option
name. -/
def flavourNameHit (nm : String) : Bool :=
  ["flavour", "flavor", "taste", "variant"].any (fun p => containsStr p (lowerStr nm))

/-- First option pair with a non-empty value whose name matches the flavour
regex. -/
def optionFlavour (v : RawVariant) : Option String :=
  match v.options.find? (fun kv => !kv.2.data.isEmpty && flavourNameHit kv.1) with
  | some kv => some kv.2
  | none => none

/-- The fixed flavour vocabulary of the grouping fallback regex, in pattern
order. -/
def flavour_words : List String :=
  ["Original", "Mango", "Strawberry", "Raspberry", "Pineapple", "Lemon", "Tropical",
   "Berry", "Apple", "Orange"]

/-- Case-insensitive prefix test. -/
def ciPrefix (pat l : List Char) : Bool :=
  (pat.map Char.toLower).isPrefixOf (l.map Char.toLower)

/-- Leftmost case-insensitive match of the flavour vocabulary, returning
`m.group(0)` — the matched substring in its original case. -/
def flavourWordAux : List Char → Option String
  | [] => none
  | l@(_ :: cs) =>
      match flavour_words.find? (fun w => ciPrefix w.data l) with
      | some w => some ⟨l.take w.data.length⟩
      | none => flavourWordAux cs

/-- Grouping key of a variant (lines 464-472): flavour-named option value,
else flavour word found in the combined text, else `"Default"`. -/
def flavourOf (v : RawVariant) : String :=
  let f := (optionFlavour v).getD "Default"
  if f == "Default" then
    match flavourWordAux v.combined.data with
    | some w => w
    | none => "Default"
  else f

/-- One step of Python `max` over a list. -/
def maxOpt (x : ℚ) : Option ℚ → Option ℚ
  | none => some x
  | some y => some (max x y)

/-- One step of Python `min` over a list. -/
def minOpt (x : ℚ) : Option ℚ → Option ℚ
  | none => some x
  | some y => some (min x y)

/-- Python `max` over a list, `none` on the empty list. -/
def listMax (l : List ℚ) : Option ℚ := l.foldr maxOpt none

/-- Python `min` over a list, `none` on the empty list. -/
def listMin (l : List ℚ) : Option ℚ := l.foldr minOpt none

/-- First-occurrence deduplication (Python `dict` key order / the effect of
`set` before sorting). -/
def firstDedupAux {α : Type} [DecidableEq α] : List α → List α → List α
  | [], _ => []
  | x :: xs, seen =>
      if x ∈ seen then firstDedupAux xs seen else x :: firstDedupAux xs (x :: seen)

/-- Deduplicate keeping first occurrences. -/
def firstDedup {α : Type} [DecidableEq α] (l : List α) : List α := firstDedupAux l []

/-- Python `sorted(set(l))`. -/
def sortDedup (l : List ℚ) : List ℚ :=
  List.insertionSort (fun a b => a ≤ b) (firstDedup l)

/-- Truthy prices of the explicit-subscription variants of a group
(line 481). -/
def explicitSubsPrices (gv : List RawVariant) : List ℚ :=
  ((gv.filter (fun v => v.explicit_sub)).filterMap (fun v => v.price)).filter
    (fun q => decide (q ≠ 0))

/-- Truthy prices of the explicit-one-time variants of a group (line 484). -/
def explicitOnesPrices (gv : List RawVariant) : List ℚ :=
  ((gv.filter (fun v => v.explicit_one)).filterMap (fun v => v.price)).filter
    (fun q => decide (q ≠ 0))

/-- `subs_price` after lines 480-482. -/
def subsPriceOf (gv : List RawVariant) : Option ℚ := listMax (explicitSubsPrices gv)

/-- `one_price` after lines 483-485. -/
def onePriceOf (gv : List RawVariant) : Option ℚ := listMin (explicitOnesPrices gv)

/-- `group_prices` (line 488): sorted distinct non-`None` prices, zeros
included. -/
def groupPricesOf (gv : List RawVariant) : List ℚ :=
  sortDedup (gv.filterMap (fun v => v.price))

/-- `single_prices` of the on-the-go branch (line 493): sorted distinct
truthy prices. -/
def singlePricesOf (gv : List RawVariant) : List ℚ :=
  sortDedup ((gv.filterMap (fun v => v.price)).filter (fun q => decide (q ≠ 0)))

/-- Regex `\b(foc|marketing|pr)\b` on a lowered text. -/
def promoHit (t : List Char) : Bool :=
  wordSearchB "foc" t || wordSearchB "marketing" t || wordSearchB "pr" t

/-- The promotional/internal filter of line 379. -/
def promoB (pname handle : String) : Bool :=
  promoHit (lowerStr pname).data || promoHit (lowerStr handle).data

/-- `p1`, then `\s*`, then `p2`, matching at the head of `l`. -/
def seqWsAt (p1 p2 : List Char) (l : List Char) : Bool :=
  p1.isPrefixOf l && p2.isPrefixOf ((l.drop p1.length).dropWhile Char.isWhitespace)

/-- Search `p1\s*p2` anywhere. -/
def seqWsSearch (p1 p2 : String) : List Char → Bool
  | [] => false
  | l@(_ :: cs) => seqWsAt p1.data p2.data l || seqWsSearch p1 p2 cs

/-- Regex `shot\s*glass` (case-insensitive) on the product name (line 423). -/
def shotGlassB (pname : String) : Bool :=
  seqWsSearch "shot" "glass" (lowerStr pname).data

/-- Regex `\bdaily\b|\bdaily-essential\b` on a lowered text. -/
def dailyHit (t : List Char) : Bool :=
  wordSearchB "daily" t || wordSearchB "daily-essential" t

/-- `product_is_daily` (line 487). -/
def dailyB (pname handle : String) : Bool :=
  dailyHit (lowerStr pname).data || dailyHit (lowerStr handle).data

/-- Regex `\bon\s*the\s*go\b` matching at position `i`. -/
def onTheGoAt (t : List Char) (i : ℕ) : Bool :=
  (i == 0 || !wordCharAt t (i - 1)) &&
    (let l := t.drop i
     "on".data.isPrefixOf l &&
       (let l2 := (l.drop 2).dropWhile Char.isWhitespace
        "the".data.isPrefixOf l2 &&
          (let l3 := (l2.drop 3).dropWhile Char.isWhitespace
           "go".data.isPrefixOf l3 &&
             (match l3.drop 2 with | [] => true | c :: _ => !isWordChar c))))

/-- Regex `\bon\s*the\s*go\b` (case-insensitive) on the product name
(line 492). -/
def onTheGoB (pname : String) : Bool :=
  (List.range ((lowerStr pname).data.length + 1)).any
    (fun i => onTheGoAt (lowerStr pname).data i)

/-- Regex `(single|twin|pack|\d+\s*x|\d+\s*ml)`: does a digit occur followed
by optional whitespace and `pat`? -/
def digitThen (pat : String) : List Char → Bool
  | [] => false
  | c :: cs =>
      (c.isDigit && pat.data.isPrefixOf (cs.dropWhile Char.isWhitespace)) || digitThen pat cs

/-- The pack/volume pattern applied to option values of shot-glass products
(line 433). -/
def packValPat (s : String) : Bool :=
  let t := (lowerStr s).data
  containsSubL "single".data t || containsSubL "twin".data t || containsSubL "pack".data t ||
    digitThen "x" t || digitThen "ml" t

/-- Remainder after the closing `>` of a tag, `none` when a newline or the
end of input intervenes (regex `<.*?>` without DOTALL). -/
def tagEnd : List Char → Option (List Char)
  | [] => none
  | '>' :: cs => some cs
  | '\n' :: _ => none
  | _ :: cs => tagEnd cs

/-- One left-to-right pass of `re.sub("<.*?>", "", _)`, with fuel for
structural recursion (fuel = input length suffices). -/
def stripTagsFuel : ℕ → List Char → List Char
  | 0, _ => []
  | _ + 1, [] => []
  | f + 1, '<' :: cs =>
      (match tagEnd cs with
       | some rest => stripTagsFuel f rest
       | none => '<' :: stripTagsFuel f cs)
  | f + 1, c :: cs => c :: stripTagsFuel f cs

/-- `re.sub("<.*?>", "", s)`. -/
def stripTags (s : String) : String := ⟨stripTagsFuel s.data.length s.data⟩

/-- `desc` of lines 381-386: strip markup, fall back to the product name,
truncate to 400 characters with an ellipsis marker. -/
def descOf (pname : String) (body_html : Option String) : String :=
  let d := trimStr (stripTags (body_html.getD ""))
  let d2 := if d.data.isEmpty then pname else d
  if 400 < d2.data.length then String.mk (d2.data.take 400) ++ "..." else d2

/-- `images_str` of lines 387-388. -/
def imagesStrOf (imgs : List String) : String :=
  joinSep ", " (imgs.filter (fun s => !s.data.isEmpty))

/-- One output row of `extract_symprove_products`, field for field. -/
structure OfferRecord where
  productName : String
  description : String
  flavourName : String
  oneTimePrice : String
  subscriptionPrice : String
  purchaseType : String
  pack : String
  productImages : String
  url : String
deriving DecidableEq

/-- The purchase-type chain of lines 497-504, on Python truthiness. -/
def purchaseTypeOf (one subs : Option ℚ) : String :=
  if truthy one && truthy subs then "Both"
  else if truthy subs then "Subscription only"
  else "One-time only"

/-- `(subs_price, one_price)` after the daily-product override of
lines 487-490. -/
def dailyPair (pname handle : String) (gv : List RawVariant) : Option ℚ × Option ℚ :=
  let gp := groupPricesOf gv
  if dailyB pname handle && (gp.length == 2) then (gp.get? 1, gp.get? 0)
  else (subsPriceOf gv, onePriceOf gv)

/-- The record emitted for one flavour group (lines 475-525). -/
def groupRecord (pname handle desc imgs flavour : String) (gv : List RawVariant) :
    OfferRecord :=
  let sp := (dailyPair pname handle gv).1
  let op := (dailyPair pname handle gv).2
  if onTheGoB pname then
    { productName := pname, description := desc, flavourName := flavour,
      oneTimePrice := fmt (singlePricesOf gv).head?,
      subscriptionPrice := fmt none,
      purchaseType := "One-time (On The Go)",
      pack := normalize_pack_text (joinSep "" (gv.map (fun v => v.title))),
      productImages := imgs,
      url := "https://www.symprove.com/products/" ++ handle }
  else
    { productName := pname, description := desc, flavourName := flavour,
      oneTimePrice := fmt op, subscriptionPrice := fmt sp,
      purchaseType := purchaseTypeOf op sp,
      pack := normalize_pack_text (joinSep "" (gv.map (fun v => v.title))),
      productImages := imgs,
      url := "https://www.symprove.com/products/" ++ handle }

/-- Shot-glass flavour (lines 425-430): flavour-named option value or
`"Default"`. -/
def shotFlavourOf (v : RawVariant) : String := (optionFlavour v).getD "Default"

/-- Shot-glass pack label (lines 431-438). -/
def shotPackOf (v : RawVariant) : String :=
  let pc : Option String :=
    match (v.options.map (fun kv => kv.2)).find?
        (fun val => !val.data.isEmpty && packValPat val) with
    | some val => some (trimStr val)
    | none => none
  let falsy := match pc with | none => true | some s => s.data.isEmpty
  let pc2 := if falsy && !v.title.data.isEmpty then some v.title else pc
  normalize_pack_text (pc2.getD "")

/-- The record emitted for one variant of a shot-glass product
(lines 423-460). -/
def shotRecord (pname desc imgs handle : String) (v : RawVariant) : OfferRecord :=
  { productName := pname, description := desc, flavourName := shotFlavourOf v,
    oneTimePrice := fmt v.price, subscriptionPrice := fmt none,
    purchaseType := "Pack-based",
    pack := shotPackOf v, productImages := imgs,
    url := "https://www.symprove.com/products/" ++ handle }

/-- All rows emitted for one feed product (the body of the product loop of
`extract_symprove_products`, lines 376-525). -/
def product_rows (p : FeedProduct) : List OfferRecord :=
  let pname := p.title.getD "N/A"
  let handle := p.handle.getD ""
  if promoB pname handle then []
  else
    let desc := descOf pname p.body_html
    let imgs := imagesStrOf p.images
    let vl := variant_list pname p.options p.variants
    if shotGlassB pname then vl.map (shotRecord pname desc imgs handle)
    else
      (firstDedup (vl.map flavourOf)).map
        (fun f => groupRecord pname handle desc imgs f (vl.filter (fun v => flavourOf v == f)))

/-- `extract_symprove_products` (lines 360-526) on an already-fetched feed:
the concatenation of each product's rows. -/
def extract_symprove_products (feed : List FeedProduct) : List OfferRecord :=
  (feed.map product_rows).flatten

/-- Drop the order-sensitive pack label of a record. -/
def erasePack (r : OfferRecord) : OfferRecord := { r with pack := "" }



def dailyDemo : FeedProduct :=
  { title := some "Daily Essential", handle := some "daily-essential", body_html := none,
    images := [], options := [],
    variants :=
      [{ fid := none, title := some "One-time", price := some 20, compare_at_price := none,
         option1 := none, option2 := none, option3 := none },
       { fid := none, title := some "Subscribe", price := some 18, compare_at_price := none,
         option1 := none, option2 := none, option3 := none }] }


def shotDemo : FeedProduct :=
  { title := some "Shot Glass Mango Twin", handle := some "shot-glass-mango-twin",
    body_html := none, images := [], options := ["Flavour"],
    variants :=
      [{ fid := none, title := some "Twin Pack", price := some (qmk 999 100),
         compare_at_price := none, option1 := some "Mango", option2 := none,
         option3 := none }] }


/-! ### Lemmas about the numeric-token scanner (claim C7) -/

theorem scanNum_nodigit : ∀ (l : List Char), (∀ c ∈ l, c.isDigit = false) →
    scanNum l = none := by
  intro l
  induction l with
  | nil => intro _; rfl
  | cons c cs ih =>
      intro h
      have hc : c.isDigit = false := h c (List.mem_cons_self c cs)
      simp only [scanNum, hc, if_false]
      exact ih (fun x hx => h x (List.mem_cons_of_mem c hx))

theorem scanNum_append_nodigit : ∀ (l1 l2 : List Char), (∀ c ∈ l1, c.isDigit = false) →
    scanNum (l1 ++ l2) = scanNum l2 := by
  intro l1
  induction l1 with
  | nil => intro l2 _; rfl
  | cons c cs ih =>
      intro l2 h
      have hc : c.isDigit = false := h c (List.mem_cons_self c cs)
      simp only [List.cons_append, scanNum, hc, if_false]
      exact ih l2 (fun x hx => h x (List.mem_cons_of_mem c hx))

theorem takeWhile_all_append (p : Char → Bool) :
    ∀ (l1 l2 : List Char), (∀ c ∈ l1, p c = true) →
    (l1 ++ l2).takeWhile p = l1 ++ l2.takeWhile p := by
  intro l1
  induction l1 with
  | nil => intro l2 _; rfl
  | cons c cs ih =>
      intro l2 h
      have hc : p c = true := h c (List.mem_cons_self c cs)
      simp only [List.cons_append, List.takeWhile_cons, hc, if_true]
      rw [ih l2 (fun x hx => h x (List.mem_cons_of_mem c hx))]

theorem dropWhile_all_append (p : Char → Bool) :
    ∀ (l1 l2 : List Char), (∀ c ∈ l1, p c = true) →
    (l1 ++ l2).dropWhile p = l2.dropWhile p := by
  intro l1
  induction l1 with
  | nil => intro l2 _; rfl
  | cons c cs ih =>
      intro l2 h
      have hc : p c = true := h c (List.mem_cons_self c cs)
      simp only [List.cons_append, List.dropWhile_cons, hc, if_true]
      exact ih l2 (fun x hx => h x (List.mem_cons_of_mem c hx))

theorem takeWhile_head_false (p : Char → Bool) (l : List Char)
    (h : ∀ c, l.head? = some c → p c = false) : l.takeWhile p = [] := by
  cases l with
  | nil => rfl
  | cons c cs =>
      have := h c rfl
      simp [List.takeWhile_cons, this]

theorem dropWhile_head_false (p : Char → Bool) (l : List Char)
    (h : ∀ c, l.head? = some c → p c = false) : l.dropWhile p = l := by
  cases l with
  | nil => rfl
  | cons c cs =>
      have := h c rfl
      simp [List.dropWhile_cons, this]

theorem digit_not_comma {c : Char} (h : c.isDigit = true) : (!(c == ',')) = true := by
  by_cases hc : c = ','
  · subst hc; exact absurd h (by decide)
  · simp [hc]

theorem filter_digits_id (ds : List Char) (h : ∀ c ∈ ds, c.isDigit = true) :
    ds.filter (fun c => !(c == ',')) = ds :=
  List.filter_eq_self.mpr (fun c hc => digit_not_comma (h c hc))

/-- Value of `qmk` on a decimal `I.F` with `k` fraction digits. -/
theorem qmk_dec_val (I F k : ℕ) :
    qmk (I * 10 ^ k + F) (10 ^ k) = (I : ℚ) + (F : ℚ) / (10 : ℚ) ^ k := by
  have hk : (10 : ℕ) ^ k ≠ 0 := pow_ne_zero k (by norm_num)
  rw [qmk_eq _ _ hk]
  have h10 : ((10 : ℕ) ^ k : ℚ) ≠ 0 := by exact_mod_cast hk
  field_simp
  try push_cast
  try ring

/-- Value of `qmk` on an integer. -/
theorem qmk_nat_val (I : ℕ) : qmk I 1 = (I : ℚ) := by
  rw [qmk_eq _ _ (by norm_num)]
  norm_num

/-- Core computation: the scanner on `digits ++ "." ++ digits ++ rest`. -/
theorem scanNum_decimal (ds fs r : List Char)
    (hds : ds ≠ []) (hd : ∀ c ∈ ds, c.isDigit = true)
    (hfs : fs ≠ []) (hf : ∀ c ∈ fs, c.isDigit = true)
    (hr : ∀ c, r.head? = some c → c.isDigit = false) :
    scanNum (ds ++ '.' :: (fs ++ r))
      = some (qmk (digitsToNat ds * 10 ^ fs.length + digitsToNat fs) (10 ^ fs.length)) := by
  have htw : (ds ++ '.' :: (fs ++ r)).takeWhile Char.isDigit = ds := by
    rw [takeWhile_all_append Char.isDigit ds ('.' :: (fs ++ r)) hd]
    simp [List.takeWhile_cons, (by decide : ('.').isDigit = false)]
  have hdw : (ds ++ '.' :: (fs ++ r)).dropWhile Char.isDigit = '.' :: (fs ++ r) := by
    rw [dropWhile_all_append Char.isDigit ds ('.' :: (fs ++ r)) hd]
    simp [List.dropWhile_cons, (by decide : ('.').isDigit = false)]
  have htw2 : (fs ++ r).takeWhile Char.isDigit = fs := by
    rw [takeWhile_all_append Char.isDigit fs r hf, takeWhile_head_false Char.isDigit r hr,
      List.append_nil]
  have hfsE : fs.isEmpty = false := by
    cases fs with
    | nil => exact absurd rfl hfs
    | cons x xs => rfl
  have htok : tokenVal (ds ++ '.' :: (fs ++ r))
      = qmk (digitsToNat ds * 10 ^ fs.length + digitsToNat fs) (10 ^ fs.length) := by
    unfold tokenVal
    rw [hdw]
    simp only [htw2, htw, hfsE]
    rfl
  cases ds with
  | nil => exact absurd rfl hds
  | cons d ds' =>
      have hdd : d.isDigit = true := hd d (List.mem_cons_self d ds')
      have hscan : scanNum ((d :: ds') ++ '.' :: (fs ++ r))
          = some (tokenVal ((d :: ds') ++ '.' :: (fs ++ r))) := by
        simp [scanNum, hdd]
      rw [hscan, htok]

/-- Core computation: the scanner on `digits` with nothing after. -/
theorem scanNum_integer (ds : List Char)
    (hds : ds ≠ []) (hd : ∀ c ∈ ds, c.isDigit = true) :
    scanNum ds = some (qmk (digitsToNat ds) 1) := by
  have htw : ds.takeWhile Char.isDigit = ds := by
    rw [show ds = ds ++ [] from (List.append_nil _).symm,
      takeWhile_all_append Char.isDigit ds [] hd]
    simp
  have hdw : ds.dropWhile Char.isDigit = [] := by
    rw [show ds = ds ++ [] from (List.append_nil _).symm,
      dropWhile_all_append Char.isDigit ds [] hd]
    simp
  have htok : tokenVal ds = qmk (digitsToNat ds) 1 := by
    unfold tokenVal
    rw [hdw, htw]
  cases ds with
  | nil => exact absurd rfl hds
  | cons d ds' =>
      have hdd : d.isDigit = true := hd d (List.mem_cons_self d ds')
      have hscan : scanNum (d :: ds') = some (tokenVal (d :: ds')) := by
        simp [scanNum, hdd]
      rw [hscan, htok]

/-- C7.  `parse_price_str` never throws (it is a total function of this
development); on null input or input with no digit it returns null, and on
an input containing a decimal number — possibly with thousands separators,
which are removed before matching — it returns the value of the first
numeric token as an exact rational. -/
theorem C7_parse_price_str_total_and_correct :
    parse_price_str none = none
  ∧ parse_price_str (some "") = none
  ∧ (∀ s : String, (∀ c ∈ s.data, c.isDigit = false) → parse_price_str (some s) = none)
  ∧ parse_price_str (some "N/A") = none
  ∧ parse_price_str (some "£1,234.56") = some ((123456 : ℚ) / 100)
  ∧ (∀ (a : String) (ds fs : List Char) (b : String),
      (∀ c ∈ a.data, c.isDigit = false) →
      ds ≠ [] → (∀ c ∈ ds, c.isDigit = true) →
      fs ≠ [] → (∀ c ∈ fs, c.isDigit = true) →
      (∀ c, (b.data.filter (fun c => !(c == ','))).head? = some c → c.isDigit = false) →
      parse_price_str (some (a ++ String.mk ds ++ "." ++ String.mk fs ++ b))
        = some ((digitsToNat ds : ℚ) + (digitsToNat fs : ℚ) / (10 : ℚ) ^ fs.length))
  ∧ (∀ (a : String) (ds : List Char),
      (∀ c ∈ a.data, c.isDigit = false) →
      ds ≠ [] → (∀ c ∈ ds, c.isDigit = true) →
      parse_price_str (some (a ++ String.mk ds)) = some (digitsToNat ds : ℚ)) := by
  refine ⟨rfl, rfl, ?_, by decide, ?_, ?_, ?_⟩
  · intro s h
    show scanNum (s.data.filter fun c => !(c == ',')) = none
    exact scanNum_nodigit _ (fun c hc => h c (List.mem_of_mem_filter hc))
  · have h : parse_price_str (some "£1,234.56") = some (qmk 123456 100) := by decide
    rw [h, qmk_eq 123456 100 (by norm_num)]
    norm_num
  · intro a ds fs b ha hds hd hfs hf hb
    show scanNum (((a ++ String.mk ds ++ "." ++ String.mk fs ++ b).data).filter
      fun c => !(c == ',')) = _
    rw [String.data_append, String.data_append, String.data_append, String.data_append]
    have hdsd : (String.mk ds).data = ds := rfl
    have hfsd : (String.mk fs).data = fs := rfl
    rw [hdsd, hfsd]
    rw [List.filter_append, List.filter_append, List.filter_append, List.filter_append,
      filter_digits_id ds hd, filter_digits_id fs hf]
    have hdot : ("." : String).data.filter (fun c => !(c == ',')) = ['.'] := by decide
    rw [hdot]
    simp only [List.append_assoc, List.singleton_append]
    rw [scanNum_append_nodigit (a.data.filter (fun c => !(c == ','))) _
      (fun c hc => ha c (List.mem_of_mem_filter hc))]
    have hrest := scanNum_decimal ds fs (b.data.filter (fun c => !(c == ','))) hds hd hfs hf hb
    rw [qmk_dec_val] at hrest
    simpa only [List.cons_append, List.append_assoc] using hrest
  · intro a ds ha hds hd
    show scanNum (((a ++ String.mk ds).data).filter fun c => !(c == ',')) = _
    rw [String.data_append]
    have hdsd : (String.mk ds).data = ds := rfl
    rw [hdsd, List.filter_append, filter_digits_id ds hd]
    rw [scanNum_append_nodigit _ _ (fun c hc => ha c (List.mem_of_mem_filter hc))]
    rw [scanNum_integer ds hds hd, qmk_nat_val]

/-! ### Word-boundary hits as propositions (claims C8, C3) -/

/-- Proposition form of a `\bpat\b` regex hit. -/
def WordHitP (pat : String) (t : List Char) : Prop := ∃ i, wordMatchAt pat.data t i = true

theorem wordMatchAt_le_length {pat t : List Char} {i : ℕ} (hp : pat ≠ [])
    (h : wordMatchAt pat t i = true) : i < t.length + 1 := by
  by_contra hgt
  have hge : t.length ≤ i := by omega
  have hdrop : t.drop i = [] := List.drop_eq_nil_of_le hge
  have hm : matchesAt pat t i = true := by
    simp only [wordMatchAt, Bool.and_eq_true] at h
    exact h.1.1
  rw [matchesAt, hdrop] at hm
  cases pat with
  | nil => exact hp rfl
  | cons c cs => exact Bool.noConfusion hm

theorem wordSearchB_iff (pat : String) (t : List Char) (hp : pat.data ≠ []) :
    wordSearchB pat t = true ↔ WordHitP pat t := by
  rw [wordSearchB, List.any_eq_true]
  constructor
  · rintro ⟨i, _, hi⟩; exact ⟨i, hi⟩
  · rintro ⟨i, hi⟩
    exact ⟨i, List.mem_range.mpr (wordMatchAt_le_length hp hi), hi⟩

/-! ### The document-side price extractor (claim C9) -/

/-- Regex search `£\s*\d` — a pound sign followed by optional whitespace and
a digit. -/
def poundDigit : List Char → Bool
  | [] => false
  | '£' :: cs =>
      (match cs.dropWhile Char.isWhitespace with
       | c :: _ => c.isDigit
       | [] => false) || poundDigit cs
  | _ :: cs => poundDigit cs

/-- Match of `£\s*\d{1,3}(?:[,\d]*)(?:\.\d+)?` anchored at the head of the
input: the pound sign, the greedy whitespace run, the greedy digit/comma run
starting with a digit, and the optional greedy fraction. -/
def currencyAt : List Char → Option (List Char)
  | '£' :: cs =>
      (match cs.dropWhile Char.isWhitespace with
       | c :: _ =>
           if c.isDigit then
             some ('£' :: (cs.takeWhile Char.isWhitespace ++
               (cs.dropWhile Char.isWhitespace).takeWhile (fun x => x.isDigit || x == ',') ++
               (match ((cs.dropWhile Char.isWhitespace).dropWhile
                   (fun x => x.isDigit || x == ',')) with
                | '.' :: r2 =>
                    if (r2.takeWhile Char.isDigit).isEmpty then []
                    else '.' :: r2.takeWhile Char.isDigit
                | _ => [])))
           else none
       | [] => none)
  | _ => none

/-- Leftmost match of the currency pattern. -/
def currencySearchL : List Char → Option (List Char)
  | [] => none
  | l@(_ :: cs) =>
      match currencyAt l with
      | some m => some m
      | none => currencySearchL cs

/-- Leftmost match of the currency pattern on a string (`m.group(0)`). -/
def currencySearchStr (s : String) : Option String := (currencySearchL s.data).map String.mk

/-- A rendered DOM element: its inner text and its descendant query
capability (`query_selector`). -/
inductive Elem where
  | mk : String → (String → Option Elem) → Elem

/-- Inner text of an element. -/
def Elem.innerText : Elem → String
  | .mk t _ => t

/-- Descendant query of an element. -/
def Elem.querySel : Elem → String → Option Elem
  | .mk _ q => q

/-- A loaded product page: the selector query capability and the raw
document text (`page.content()`). -/
structure Page where
  querySel : String → Option Elem
  content : String

/-- The xpath used by step 1 of `extract_price`. -/
def one_time_xpath : String :=
  "//text()[contains(normalize-space(.), \x27One-time purchase\x27) or contains(normalize-space(.), \x27one-time purchase\x27)]/ancestor::*[1]"

/-- The three descendant selectors probed inside the one-time block. -/
def step1_candidates : List String :=
  [".//span[contains(@class,\x27a-offscreen\x27)]",
   ".//span[contains(@id,\x27price\x27) or contains(@class,\x27a-color-price\x27) or contains(@class,\x27a-price\x27)]",
   ".//span[contains(@class,\x27price\x27)]"]

/-- The ordered price-container selectors of step 2. -/
def price_selectors : List String :=
  ["span.a-price > span.a-offscreen",
   "span#priceblock_ourprice",
   "span#priceblock_dealprice",
   "span#price_inside_buybox",
   "#corePrice_feature_div span.a-price > span.a-offscreen",
   "#corePrice_desktop span.a-price > span.a-offscreen",
   "div#corePrice_feature_div span.a-offscreen",
   "div#corePrice_feature_div .a-price-whole",
   "div#price span.a-offscreen",
   "span.a-color-price",
   "div.a-section.a-spacing-none span.a-price > span.a-offscreen",
   "div.a-section.a-spacing-small .a-price > span.a-offscreen"]

/-- `try_selector` of `extract_price` (lines 97-108). -/
def try_selector (page : Page) (sel : String) : Option String :=
  match page.querySel sel with
  | none => none
  | some el =>
      let txt := trimStr el.innerText
      if !txt.data.isEmpty && poundDigit txt.data then
        match currencySearchStr txt with
        | some m => some m
        | none => some txt
      else none

/-- Step 1 of `extract_price` (lines 111-133). -/
def step1 (page : Page) : Option String :=
  match page.querySel one_time_xpath with
  | none => none
  | some el =>
      step1_candidates.findSome? (fun cand =>
        match el.querySel cand with
        | some f => currencySearchStr (trimStr f.innerText)
        | none => none)

/-- Step 2 of `extract_price` (lines 136-153). -/
def step2 (page : Page) : Option String := price_selectors.findSome? (try_selector page)

/-- Step 3 of `extract_price` (lines 156-163). -/
def step3 (page : Page) : Option String :=
  match (page.querySel "a[href*=\x27/gp/offer-listing\x27]").orElse
      (fun _ => page.querySel "span.a-size-medium.a-color-price") with
  | some el =>
      if containsStr "See buying options" (trimStr el.innerText) then some "See Buying Options"
      else none
  | none => none

/-- Step 4 of `extract_price` (lines 166-172): whole-body scan. -/
def step4 (page : Page) : Option String := currencySearchStr page.content

/-- `extract_price` (lines 90-174): the ordered fallback chain with the
`"N/A"` sentinel. -/
def extract_price (page : Page) : String :=
  ((((step1 page).orElse (fun _ => step2 page)).orElse (fun _ => step3 page)).orElse
    (fun _ => step4 page)).getD "N/A"

/-- Closed instantiation of `C7_parse_price_str_total_and_correct`. -/
theorem C7_witness :
    parse_price_str (some "no digits here") = none
  ∧ parse_price_str (some "£12.5")
      = some ((digitsToNat ['1', '2'] : ℚ) + (digitsToNat ['5'] : ℚ) / (10 : ℚ) ^
          (['5'] : List Char).length) := by
  constructor
  · exact C7_parse_price_str_total_and_correct.2.2.1 "no digits here" (by decide)
  · exact C7_parse_price_str_total_and_correct.2.2.2.2.2.1 "£" ['1', '2'] ['5'] ""
      (by decide) (by decide) (by decide) (by decide) (by decide)
      (fun c hc => Option.noConfusion hc)

/-- C8 counterexample: `"2-packs"` contains the keyword `"2-pack"`, yet
`normalize_pack_text` returns the verbatim text, not `"Twin Pack"` — the
source matches its keywords with `\b` word boundaries, which fail on the
trailing `s`. -/
theorem C8_counterexample :
    containsStr "2-pack" (lowerStr "2-packs") = true
  ∧ normalize_pack_text "2-packs" = "2-packs"
  ∧ normalize_pack_text "2-packs" ≠ "Twin Pack" := by
  refine ⟨by decide, by decide, by decide⟩

/-- C8 (amended): `normalize_pack_text` classifies case-insensitively in
priority order, with the first two tiers matched as whole words
(word-boundary semantics): `\btwin\b`/`\b2-?pack\b`/`\bdouble\b` gives
`"Twin Pack"`; else `\bsingle\b`/`\b1-?pack\b`/the literal `pack of 1`
gives `"Single Pack"`; else the secondary pattern
`single|twin|2x|2 x|1x|1 x` classifies its leftmost match by presence of
`2`/`twin`; otherwise the trimmed verbatim input is returned, and empty
input gives `"N/A"` (`"Twin Pack of 2"` → `"Twin Pack"`, `"Single 500ml"` →
`"Single Pack"`, `""` → `"N/A"`). -/
theorem C8_normalize_pack_text_cases :
    normalize_pack_text "" = "N/A"
  ∧ normalize_pack_text "Twin Pack of 2" = "Twin Pack"
  ∧ normalize_pack_text "Single 500ml" = "Single Pack"
  ∧ (∀ t : String, t.data ≠ [] →
      (WordHitP "twin" (lowerStr t).data ∨ WordHitP "2pack" (lowerStr t).data ∨
        WordHitP "2-pack" (lowerStr t).data ∨ WordHitP "double" (lowerStr t).data) →
      normalize_pack_text t = "Twin Pack")
  ∧ (∀ t : String, t.data ≠ [] → twinTier (lowerStr t).data = false →
      (WordHitP "single" (lowerStr t).data ∨ WordHitP "1pack" (lowerStr t).data ∨
        WordHitP "1-pack" (lowerStr t).data ∨
        containsSubL "pack of 1".data (lowerStr t).data = true) →
      normalize_pack_text t = "Single Pack")
  ∧ (∀ (t : String) (g : String), t.data ≠ [] → twinTier (lowerStr t).data = false →
      singleTier (lowerStr t).data = false →
      altFindAux packAlts (lowerStr t).data = some g →
      normalize_pack_text t =
        (if containsStr "twin" g || containsStr "2" g then "Twin Pack" else "Single Pack"))
  ∧ (∀ t : String, t.data ≠ [] → twinTier (lowerStr t).data = false →
      singleTier (lowerStr t).data = false →
      altFindAux packAlts (lowerStr t).data = none →
      normalize_pack_text t = trimStr t) := by
  have hE : ∀ t : String, t.data ≠ [] → t.data.isEmpty = false := by
    intro t h
    cases ht : t.data with
    | nil => exact absurd ht h
    | cons c cs => rfl
  refine ⟨by decide, by decide, by decide, ?_, ?_, ?_, ?_⟩
  · intro t hne hhit
    have htw : twinTier (lowerStr t).data = true := by
      rcases hhit with h | h | h | h <;>
        [rw [twinTier, (wordSearchB_iff "twin" _ (by decide)).mpr h];
         rw [twinTier, (wordSearchB_iff "2pack" _ (by decide)).mpr h];
         rw [twinTier, (wordSearchB_iff "2-pack" _ (by decide)).mpr h];
         rw [twinTier, (wordSearchB_iff "double" _ (by decide)).mpr h]] <;> simp
    simp [normalize_pack_text, hE t hne, htw]
  · intro t hne htwF hhit
    have hsg : singleTier (lowerStr t).data = true := by
      rcases hhit with h | h | h | h <;>
        [rw [singleTier, (wordSearchB_iff "single" _ (by decide)).mpr h];
         rw [singleTier, (wordSearchB_iff "1pack" _ (by decide)).mpr h];
         rw [singleTier, (wordSearchB_iff "1-pack" _ (by decide)).mpr h];
         rw [singleTier, h]] <;> simp
    simp [normalize_pack_text, hE t hne, htwF, hsg]
  · intro t g hne htwF hsgF halt
    simp [normalize_pack_text, hE t hne, htwF, hsgF, halt]
  · intro t hne htwF hsgF halt
    simp [normalize_pack_text, hE t hne, htwF, hsgF, halt]

/-- Closed instantiation of `C8_normalize_pack_text_cases`. -/
theorem C8_witness : normalize_pack_text "my twin" = "Twin Pack" :=
  C8_normalize_pack_text_cases.2.2.2.1 "my twin" (by decide) (Or.inl ⟨3, by decide⟩)

/-- Non-emptiness of a string as the negation of its data's emptiness. -/
theorem bne_empty (s : String) : (!s.data.isEmpty) = true ↔ s ≠ "" := by
  constructor
  · intro h heq
    subst heq
    exact absurd h (by decide)
  · intro h
    cases hd : s.data with
    | nil =>
        exact absurd (by cases s with | mk d => cases hd; rfl) h
    | cons c cs => simp [hd, List.isEmpty]

/-- C5 counterexample: an option pair whose name alone contains a keyword
does not suffice when its value is empty — the source skips pairs with a
falsy value (`if v and ...`). -/
theorem C5_counterexample :
    containsStr "subscribe" (lowerStr ("subscribe" ++ " " ++ "")) = true
  ∧ is_explicit_subscription "hello" [("subscribe", "")] = false
  ∧ containsStr "single" (lowerStr ("single" ++ " " ++ "")) = true
  ∧ is_explicit_onetime "hello" [("single", "")] = false := by
  refine ⟨by decide, by decide, by decide, by decide⟩

/-- C5 (amended): `is_explicit_subscription` is true iff the combined text
contains one of its keywords (case-insensitively), or some option pair with
a NON-EMPTY value has a name-plus-value text containing one; likewise
`is_explicit_onetime` with its keywords.  A pair whose name alone carries
the keyword suffices only when its value is non-empty. -/
theorem C5_explicit_classifier_iff :
    (∀ (text : String) (m : List (String × String)),
      is_explicit_subscription text m = true ↔
        ((∃ k ∈ SUB_KEYWORDS, containsStr k (lowerStr text) = true) ∨
          (∃ kv ∈ m, kv.2 ≠ "" ∧
            ∃ s ∈ SUB_KEYWORDS, containsStr s (lowerStr (kv.1 ++ " " ++ kv.2)) = true)))
  ∧ (∀ (text : String) (m : List (String × String)),
      is_explicit_onetime text m = true ↔
        ((∃ k ∈ ONE_KEYWORDS, containsStr k (lowerStr text) = true) ∨
          (∃ kv ∈ m, kv.2 ≠ "" ∧
            ∃ s ∈ ONE_KEYWORDS, containsStr s (lowerStr (kv.1 ++ " " ++ kv.2)) = true))) := by
  constructor
  · intro text m
    simp only [is_explicit_subscription, Bool.or_eq_true, List.any_eq_true,
      Bool.and_eq_true, bne_empty]
  · intro text m
    simp only [is_explicit_onetime, Bool.or_eq_true, List.any_eq_true,
      Bool.and_eq_true, bne_empty]

/-- Closed instantiation of `C5_explicit_classifier_iff`. -/
theorem C5_witness :
    is_explicit_subscription "Zzz" [("Plan", "Subscribe & Save")] = true
  ∧ is_explicit_onetime "Zzz One-time" [] = true := by
  constructor
  · exact (C5_explicit_classifier_iff.1 "Zzz" [("Plan", "Subscribe & Save")]).mpr
      (Or.inr ⟨("Plan", "Subscribe & Save"), by decide, by decide,
        "subscribe", by decide, by decide⟩)
  · exact (C5_explicit_classifier_iff.2 "Zzz One-time" []).mpr
      (Or.inl ⟨"one-time", by decide, by decide⟩)

/-- C9: `extract_price` tries its strategies in order with first success
winning; when no selector of steps 1–3 matches anything and the body text
is `"<p>Now only £12.49!</p>"`, the whole-body scan of step 4 returns
`"£12.49"`; and when every strategy fails (no element, no currency pattern
in the body) it returns the sentinel `"N/A"`. -/
theorem C9_extract_price_fallback :
    (∀ (p : Page) (v : String), step1 p = some v → extract_price p = v)
  ∧ (∀ p : Page, (∀ s, p.querySel s = none) →
      p.content = "<p>Now only £12.49!</p>" → extract_price p = "£12.49")
  ∧ (∀ p : Page, (∀ s, p.querySel s = none) → currencySearchStr p.content = none →
      extract_price p = "N/A") := by
  have hs1 : ∀ p : Page, (∀ s, p.querySel s = none) → step1 p = none := by
    intro p hq
    simp [step1, hq]
  have hs2 : ∀ p : Page, (∀ s, p.querySel s = none) → step2 p = none := by
    intro p hq
    simp [step2, price_selectors, try_selector, hq]
  have hs3 : ∀ p : Page, (∀ s, p.querySel s = none) → step3 p = none := by
    intro p hq
    simp [step3, hq, Option.orElse]
  refine ⟨?_, ?_, ?_⟩
  · intro p v h
    simp [extract_price, h, Option.orElse]
  · intro p hq hc
    have h4 : step4 p = some "£12.49" := by
      rw [step4, hc]
      decide
    simp [extract_price, hs1 p hq, hs2 p hq, hs3 p hq, h4, Option.orElse]
  · intro p hq hc
    have h4 : step4 p = none := hc
    simp [extract_price, hs1 p hq, hs2 p hq, hs3 p hq, h4, Option.orElse]

/-- Closed instantiation of `C9_extract_price_fallback`. -/
theorem C9_witness :
    extract_price ⟨fun _ => none, "<p>Now only £12.49!</p>"⟩ = "£12.49"
  ∧ extract_price ⟨fun _ => none, "no price anywhere"⟩ = "N/A" :=
  ⟨C9_extract_price_fallback.2.1 ⟨fun _ => none, "<p>Now only £12.49!</p>"⟩
      (fun _ => rfl) rfl,
    C9_extract_price_fallback.2.2 ⟨fun _ => none, "no price anywhere"⟩
      (fun _ => rfl) (by decide)⟩

/-! ### Claim C6: shot-glass products -/

/-- A shot-glass product that the promotional filter removes first. -/
def shotPromoCex : FeedProduct :=
  { title := some "Shot Glass PR Sample", handle := some "shot-glass-sample",
    body_html := none, images := [], options := [],
    variants :=
      [{ fid := none, title := some "Twin Pack", price := some 5, compare_at_price := none,
         option1 := none, option2 := none, option3 := none }] }

/-- C6 counterexample: a product whose name matches `shot glass` but also
carries the standalone token `PR` is excluded by the promotional filter and
emits no record at all — not one per variant. -/
theorem C6_counterexample :
    shotGlassB (shotPromoCex.title.getD "N/A") = true
  ∧ shotPromoCex.variants.length = 1
  ∧ product_rows shotPromoCex = [] := by
  refine ⟨by decide, by decide, by decide⟩

/-- C6 (amended): the concrete scenario emits exactly the claimed record,
and every product whose name matches `shot\s*glass` that passes the
promotional filter bypasses grouping: one record per variant, purchase type
`"Pack-based"` (the code's spelling of the spec's `PackBased`), and the
subscription price is never assigned. -/
theorem C6_shot_glass_override :
    product_rows shotDemo =
      [{ productName := "Shot Glass Mango Twin", description := "Shot Glass Mango Twin",
         flavourName := "Mango", oneTimePrice := "£9.99", subscriptionPrice := "N/A",
         purchaseType := "Pack-based", pack := "Twin Pack", productImages := "",
         url := "https://www.symprove.com/products/shot-glass-mango-twin" }]
  ∧ (∀ p : FeedProduct,
      promoB (p.title.getD "N/A") (p.handle.getD "") = false →
      shotGlassB (p.title.getD "N/A") = true →
      product_rows p = (variant_list (p.title.getD "N/A") p.options p.variants).map
          (shotRecord (p.title.getD "N/A") (descOf (p.title.getD "N/A") p.body_html)
            (imagesStrOf p.images) (p.handle.getD ""))
        ∧ (product_rows p).length = p.variants.length
        ∧ ∀ r ∈ product_rows p, r.purchaseType = "Pack-based" ∧ r.subscriptionPrice = "N/A") := by
  constructor
  · decide
  · intro p hpromo hshot
    have hrows : product_rows p = (variant_list (p.title.getD "N/A") p.options p.variants).map
        (shotRecord (p.title.getD "N/A") (descOf (p.title.getD "N/A") p.body_html)
          (imagesStrOf p.images) (p.handle.getD "")) := by
      simp [product_rows, hpromo, hshot]
    refine ⟨hrows, ?_, ?_⟩
    · rw [hrows, List.length_map, variant_list, List.length_map]
    · intro r hr
      rw [hrows] at hr
      obtain ⟨v, _, rfl⟩ := List.mem_map.mp hr
      exact ⟨rfl, rfl⟩

/-- Closed instantiation of `C6_shot_glass_override`. -/
theorem C6_witness :
    (product_rows shotDemo).length = shotDemo.variants.length :=
  (C6_shot_glass_override.2 shotDemo (by decide) (by decide)).2.1

/-! ### Claim C10: zero prices -/

theorem mem_firstDedupAux {α : Type} [DecidableEq α] (x : α) :
    ∀ (l seen : List α), x ∈ firstDedupAux l seen ↔ x ∈ l ∧ x ∉ seen := by
  intro l
  induction l with
  | nil => intro seen; simp [firstDedupAux]
  | cons y ys ih =>
      intro seen
      by_cases hy : y ∈ seen
      · rw [firstDedupAux, if_pos hy, ih]
        constructor
        · rintro ⟨h1, h2⟩; exact ⟨List.mem_cons_of_mem y h1, h2⟩
        · rintro ⟨h1, h2⟩
          rcases List.mem_cons.mp h1 with rfl | h1
          · exact absurd hy h2
          · exact ⟨h1, h2⟩
      · rw [firstDedupAux, if_neg hy]
        constructor
        · intro h
          rcases List.mem_cons.mp h with rfl | h
          · exact ⟨List.mem_cons_self x ys, hy⟩
          · have := (ih (y :: seen)).mp h
            exact ⟨List.mem_cons_of_mem y this.1,
              fun hs => this.2 (List.mem_cons_of_mem y hs)⟩
        · rintro ⟨h1, h2⟩
          rcases List.mem_cons.mp h1 with rfl | h1
          · exact List.mem_cons_self x _
          · by_cases hxy : x = y
            · subst hxy; exact List.mem_cons_self x _
            · exact List.mem_cons_of_mem y ((ih (y :: seen)).mpr
                ⟨h1, by simp [hxy, h2]⟩)

theorem mem_firstDedup {α : Type} [DecidableEq α] (x : α) (l : List α) :
    x ∈ firstDedup l ↔ x ∈ l := by
  rw [firstDedup, mem_firstDedupAux]
  simp

theorem mem_sortDedup (x : ℚ) (l : List ℚ) : x ∈ sortDedup l ↔ x ∈ l := by
  rw [sortDedup, (List.perm_insertionSort _ _).mem_iff, mem_firstDedup]

/-- C10: a `0.0` price is excluded from the explicit-subscription,
explicit-one-time and on-the-go price sets; a resolved price of `0.0`
counts as missing in the purchase-type chain (one-time `0.0` with a real
subscription price classifies as `"Subscription only"`); yet `0.0` prices
do enter the distinct-price list the daily override counts. -/
theorem C10_zero_price_handling :
    (∀ gv : List RawVariant, (0 : ℚ) ∉ explicitSubsPrices gv)
  ∧ (∀ gv : List RawVariant, (0 : ℚ) ∉ explicitOnesPrices gv)
  ∧ (∀ gv : List RawVariant, (0 : ℚ) ∉ singlePricesOf gv)
  ∧ (∀ q : ℚ, q ≠ 0 → purchaseTypeOf (some 0) (some q) = "Subscription only")
  ∧ (∀ (gv : List RawVariant) (v : RawVariant), v ∈ gv → v.price = some 0 →
      (0 : ℚ) ∈ groupPricesOf gv) := by
  refine ⟨?_, ?_, ?_, ?_, ?_⟩
  · intro gv h
    have := (List.mem_filter.mp h).2
    simp at this
  · intro gv h
    have := (List.mem_filter.mp h).2
    simp at this
  · intro gv h
    rw [singlePricesOf, mem_sortDedup] at h
    have := (List.mem_filter.mp h).2
    simp at this
  · intro q hq
    simp [purchaseTypeOf, truthy, hq]
  · intro gv v hv hp
    rw [groupPricesOf, mem_sortDedup, List.mem_filterMap]
    exact ⟨v, hv, hp⟩

/-- Closed instantiation of `C10_zero_price_handling`. -/
theorem C10_witness :
    (0 : ℚ) ∉ explicitSubsPrices []
  ∧ purchaseTypeOf (some 0) (some 18) = "Subscription only"
  ∧ (0 : ℚ) ∈ groupPricesOf
      [{ vid := none, combined := "", options := [], title := "", price := some 0,
         compare := none, explicit_sub := false, explicit_one := false }] :=
  ⟨C10_zero_price_handling.1 [],
   C10_zero_price_handling.2.2.2.1 18 (by norm_num),
   C10_zero_price_handling.2.2.2.2 _ _ (List.mem_cons_self _ _) rfl⟩

/-! ### Claim C2: purchase type vs price nullness -/

theorem fmt_some_ne_NA (q : ℚ) : fmt (some q) ≠ "N/A" := by
  intro h
  have hd : (fmt (some q)).data = "N/A".data := congrArg String.data h
  rw [show fmt (some q) = "£" ++ ((if centsOf q < 0 then "-" else "") ++
    Nat.repr ((centsOf q).natAbs / 100) ++ "." ++
    (if (centsOf q).natAbs % 100 < 10 then "0" else "") ++
    Nat.repr ((centsOf q).natAbs % 100)) from rfl] at hd
  rw [String.data_append] at hd
  have h2 := congrArg List.head? hd
  simp at h2

theorem truthy_false_cases {x : Option ℚ} (h : truthy x = false) :
    x = none ∨ x = some 0 := by
  cases x with
  | none => exact Or.inl rfl
  | some q =>
      simp only [truthy, decide_eq_false_iff_not, Decidable.not_not] at h
      exact Or.inr (by rw [h])

theorem truthy_true_cases {x : Option ℚ} (h : truthy x = true) :
    ∃ q, x = some q := by
  cases x with
  | none => exact absurd h (by decide)
  | some q => exact ⟨q, rfl⟩

theorem fmt_not_truthy {x : Option ℚ} (h : truthy x = false) :
    fmt x = "N/A" ∨ fmt x = "£0.00" := by
  rcases truthy_false_cases h with rfl | rfl
  · exact Or.inl rfl
  · exact Or.inr (by decide)

/-- A product whose single variant carries no purchase-intent keyword. -/
def c2cex : FeedProduct :=
  { title := some "Zzz Box", handle := some "zzz-box", body_html := none, images := [],
    options := [],
    variants :=
      [{ fid := none, title := some "Plain", price := some (qmk 125 10),
         compare_at_price := none, option1 := none, option2 := none, option3 := none }] }

/-- C2 counterexample: a group with no explicit signal resolves to purchase
type `"One-time only"` with BOTH price fields `"N/A"` — zero non-null
prices, not exactly one. -/
theorem C2_counterexample :
    (product_rows c2cex).map (fun r => (r.purchaseType, r.oneTimePrice, r.subscriptionPrice))
      = [("One-time only", "N/A", "N/A")]
  ∧ (product_rows c2cex).length = 1 := by
  refine ⟨by decide, by decide⟩

/-- C2 (amended): on every emitted record, `"Both"` implies both price
fields non-null; `"Subscription only"` implies the subscription field
non-null while the one-time field is `"N/A"` or `"£0.00"`; and
`"One-time only"` only guarantees the subscription field is `"N/A"` or
`"£0.00"` — the one-time field itself may be `"N/A"` when no price signal
resolves. -/
theorem C2_purchase_type_price_nullness :
    ∀ (p : FeedProduct) (r : OfferRecord), r ∈ product_rows p →
      (r.purchaseType = "Both" → r.oneTimePrice ≠ "N/A" ∧ r.subscriptionPrice ≠ "N/A")
    ∧ (r.purchaseType = "Subscription only" →
        r.subscriptionPrice ≠ "N/A" ∧ (r.oneTimePrice = "N/A" ∨ r.oneTimePrice = "£0.00"))
    ∧ (r.purchaseType = "One-time only" →
        r.subscriptionPrice = "N/A" ∨ r.subscriptionPrice = "£0.00") := by
  have key : ∀ (pn hd de im fl : String) (gv : List RawVariant),
      ((groupRecord pn hd de im fl gv).purchaseType = "Both" →
        (groupRecord pn hd de im fl gv).oneTimePrice ≠ "N/A" ∧
          (groupRecord pn hd de im fl gv).subscriptionPrice ≠ "N/A")
    ∧ ((groupRecord pn hd de im fl gv).purchaseType = "Subscription only" →
        (groupRecord pn hd de im fl gv).subscriptionPrice ≠ "N/A" ∧
          ((groupRecord pn hd de im fl gv).oneTimePrice = "N/A" ∨
            (groupRecord pn hd de im fl gv).oneTimePrice = "£0.00"))
    ∧ ((groupRecord pn hd de im fl gv).purchaseType = "One-time only" →
        (groupRecord pn hd de im fl gv).subscriptionPrice = "N/A" ∨
          (groupRecord pn hd de im fl gv).subscriptionPrice = "£0.00") := by
    intro pn hd de im fl gv
    rw [groupRecord]
    by_cases hotg : onTheGoB pn
    · simp only [hotg, if_true]
      refine ⟨fun h => ?_, fun h => ?_, fun h => ?_⟩ <;> simp at h
    · simp only [hotg, if_false]
      cases hsp : truthy (dailyPair pn hd gv).1 with
      | true =>
          cases hop : truthy (dailyPair pn hd gv).2 with
          | true =>
              obtain ⟨qs, hqs⟩ := truthy_true_cases hsp
              obtain ⟨qo, hqo⟩ := truthy_true_cases hop
              refine ⟨fun _ => ⟨?_, ?_⟩, fun h => ?_, fun h => ?_⟩
              · show fmt _ ≠ "N/A"
                rw [hqo]
                exact fmt_some_ne_NA qo
              · show fmt _ ≠ "N/A"
                rw [hqs]
                exact fmt_some_ne_NA qs
              · simp only [purchaseTypeOf, hsp, hop] at h
                simp at h
              · simp only [purchaseTypeOf, hsp, hop] at h
                simp at h
          | false =>
              obtain ⟨qs, hqs⟩ := truthy_true_cases hsp
              refine ⟨fun h => ?_, fun _ => ⟨?_, ?_⟩, fun h => ?_⟩
              · simp only [purchaseTypeOf, hsp, hop] at h
                simp at h
              · show fmt _ ≠ "N/A"
                rw [hqs]
                exact fmt_some_ne_NA qs
              · exact fmt_not_truthy hop
              · simp only [purchaseTypeOf, hsp, hop] at h
                simp at h
      | false =>
          refine ⟨fun h => ?_, fun h => ?_, fun _ => fmt_not_truthy hsp⟩ <;>
            · simp only [purchaseTypeOf, hsp, Bool.and_false] at h
              simp at h
  intro p r hr
  rw [product_rows] at hr
  by_cases hpromo : promoB (p.title.getD "N/A") (p.handle.getD "")
  · simp [hpromo] at hr
  · simp only [hpromo, if_false] at hr
    by_cases hshot : shotGlassB (p.title.getD "N/A")
    · simp only [hshot, if_true] at hr
      obtain ⟨v, _, rfl⟩ := List.mem_map.mp hr
      have hx : (shotRecord (p.title.getD "N/A") (descOf (p.title.getD "N/A") p.body_html)
          (imagesStrOf p.images) (p.handle.getD "") v).purchaseType = "Pack-based" := rfl
      refine ⟨fun h => ?_, fun h => ?_, fun h => ?_⟩ <;>
        · rw [hx] at h
          simp at h
    · simp only [hshot, if_false] at hr
      obtain ⟨f, _, rfl⟩ := List.mem_map.mp hr
      exact key _ _ _ _ _ _

/-- Closed instantiation of `C2_purchase_type_price_nullness`. -/
theorem C2_witness :
    ({ productName := "Daily Essential", description := "Daily Essential",
       flavourName := "Default", oneTimePrice := "£18.00", subscriptionPrice := "£20.00",
       purchaseType := "Both", pack := "One-timeSubscribe", productImages := "",
       url := "https://www.symprove.com/products/daily-essential" } : OfferRecord).oneTimePrice
        ≠ "N/A" := by
  exact (C2_purchase_type_price_nullness dailyDemo _ (by decide)).1 rfl |>.1

/-! ### Claim C4: explicit max/min aggregation -/

/-- Modelled from the claim's words, for comparison with the code: minimum
over ALL prices of the explicit one-time variants, without the truthiness
filter. -/
def spec_explicit_ones_min (gv : List RawVariant) : Option ℚ :=
  listMin ((gv.filter (fun v => v.explicit_one)).filterMap (fun v => v.price))

/-- A daily-free product with two explicit one-time variants, one of them
priced `0.0`. -/
def c4cex : FeedProduct :=
  { title := some "Zzz Box", handle := some "zzz-box", body_html := none, images := [],
    options := [],
    variants :=
      [{ fid := none, title := some "One-time A", price := some 18, compare_at_price := none,
         option1 := none, option2 := none, option3 := none },
       { fid := none, title := some "One-time B", price := some 0, compare_at_price := none,
         option1 := none, option2 := none, option3 := none }] }

/-- C4 counterexample: with explicit one-time prices `{18, 0}` the emitted
one-time price is `"£18.00"`, not the claimed minimum `0` (`"£0.00"`): the
code drops falsy (zero) prices before taking the minimum. -/
theorem C4_counterexample :
    (product_rows c4cex).map (fun r => r.oneTimePrice) = ["£18.00"]
  ∧ spec_explicit_ones_min (variant_list "Zzz Box" c4cex.options c4cex.variants) = some 0
  ∧ fmt (some 0) = "£0.00"
  ∧ ("£18.00" : String) ≠ "£0.00" := by
  refine ⟨by decide, by decide, by decide, by decide⟩

/-- C4 (amended): on the general path (daily override not applicable,
no on-the-go), the emitted subscription price is the maximum over the
non-null, non-zero prices of the explicit-subscription variants (`"N/A"`
when there are none), and the one-time price the minimum over the non-null,
non-zero prices of the explicit one-time variants (`"N/A"` when none). -/
theorem C4_explicit_price_aggregation :
    ∀ (pname handle desc imgs flavour : String) (gv : List RawVariant),
      (dailyB pname handle = false ∨ (groupPricesOf gv).length ≠ 2) →
      onTheGoB pname = false →
      (groupRecord pname handle desc imgs flavour gv).subscriptionPrice
          = fmt (listMax (explicitSubsPrices gv))
        ∧ (groupRecord pname handle desc imgs flavour gv).oneTimePrice
          = fmt (listMin (explicitOnesPrices gv)) := by
  intro pname handle desc imgs flavour gv hnd hotg
  have hcond : (dailyB pname handle && (groupPricesOf gv).length == 2) = false := by
    rcases hnd with h | h
    · simp [h]
    · simp [h]
  have hdp : dailyPair pname handle gv = (subsPriceOf gv, onePriceOf gv) := by
    rw [dailyPair]
    simp [hcond]
  rw [groupRecord]
  simp only [hotg, if_false, hdp]
  exact ⟨rfl, rfl⟩

/-- Closed instantiation of `C4_explicit_price_aggregation`. -/
theorem C4_witness :
    (groupRecord "Zzz" "" "" "" "Default"
        [{ vid := none, combined := "x", options := [], title := "T", price := some 18,
           compare := none, explicit_sub := true, explicit_one := false }]).subscriptionPrice
      = fmt (listMax (explicitSubsPrices
        [{ vid := none, combined := "x", options := [], title := "T", price := some 18,
           compare := none, explicit_sub := true, explicit_one := false }])) := by
  exact (C4_explicit_price_aggregation "Zzz" "" "" "" "Default" _
    (Or.inl (by decide)) (by decide)).1

/-! ### Claim C3: daily-product override -/

/-- A product containing `daily` only as a fragment of a longer word. -/
def c3cex : FeedProduct :=
  { title := some "Dailyx", handle := some "dailyx", body_html := none, images := [],
    options := [],
    variants :=
      [{ fid := none, title := some "Subscribe", price := some 18, compare_at_price := none,
         option1 := none, option2 := none, option3 := none },
       { fid := none, title := some "One-time", price := some 20, compare_at_price := none,
         option1 := none, option2 := none, option3 := none }] }

/-- C3 counterexample: `"Dailyx"` contains the substring `daily` and its
single group has exactly two distinct prices, yet the override does not
fire (the code requires a whole-word `\bdaily\b` match): the subscription
price stays at the explicit value `"£18.00"` instead of the claimed higher
price `"£20.00"`. -/
theorem C3_counterexample :
    containsStr "daily" (lowerStr "Dailyx") = true
  ∧ groupPricesOf (variant_list "Dailyx" c3cex.options c3cex.variants) = [18, 20]
  ∧ (product_rows c3cex).map (fun r => (r.oneTimePrice, r.subscriptionPrice))
      = [("£20.00", "£18.00")]
  ∧ ("£18.00" : String) ≠ fmt (some 20) := by
  refine ⟨by decide, by decide, by decide, by decide⟩

/-- C3 (amended): the `"Daily Essential"` scenario emits exactly the
claimed record; and in general, whenever the whole word `daily` (or
`daily-essential`) occurs in the product name or handle, the name is not an
on-the-go product, and a flavour group's sorted distinct non-null price
list is exactly `[a, b]`, the emitted one-time price is the lower `a` and
the subscription price the higher `b`, regardless of explicit
classification. -/
theorem C3_daily_override :
    product_rows dailyDemo =
      [{ productName := "Daily Essential", description := "Daily Essential",
         flavourName := "Default", oneTimePrice := "£18.00", subscriptionPrice := "£20.00",
         purchaseType := "Both", pack := "One-timeSubscribe", productImages := "",
         url := "https://www.symprove.com/products/daily-essential" }]
  ∧ (∀ (pname handle desc imgs flavour : String) (gv : List RawVariant) (a b : ℚ),
      dailyB pname handle = true → onTheGoB pname = false →
      groupPricesOf gv = [a, b] →
      (groupRecord pname handle desc imgs flavour gv).oneTimePrice = fmt (some a)
        ∧ (groupRecord pname handle desc imgs flavour gv).subscriptionPrice
          = fmt (some b)) := by
  constructor
  · decide
  · intro pname handle desc imgs flavour gv a b hd hotg hgp
    have hdp : dailyPair pname handle gv = (some b, some a) := by
      rw [dailyPair, hgp]
      simp [hd]
    rw [groupRecord]
    simp only [hotg, if_false, hdp]
    exact ⟨rfl, rfl⟩

/-! ### Claim C1: order-independence of offer resolution -/

theorem maxOpt_left_comm (x y : ℚ) (m : Option ℚ) :
    maxOpt x (maxOpt y m) = maxOpt y (maxOpt x m) := by
  cases m with
  | none => simp [maxOpt, max_comm]
  | some z => simp [maxOpt, max_left_comm]

theorem minOpt_left_comm (x y : ℚ) (m : Option ℚ) :
    minOpt x (minOpt y m) = minOpt y (minOpt x m) := by
  cases m with
  | none => simp [minOpt, min_comm]
  | some z => simp [minOpt, min_left_comm]

theorem listMax_perm {l l' : List ℚ} (h : l.Perm l') : listMax l = listMax l' := by
  induction h with
  | nil => rfl
  | cons x _ ih =>
      simp only [listMax] at ih ⊢
      simp only [List.foldr_cons]
      rw [ih]
  | swap x y l =>
      simp only [listMax, List.foldr_cons]
      exact maxOpt_left_comm y x _
  | trans _ _ ih1 ih2 => exact ih1.trans ih2

theorem listMin_perm {l l' : List ℚ} (h : l.Perm l') : listMin l = listMin l' := by
  induction h with
  | nil => rfl
  | cons x _ ih =>
      simp only [listMin] at ih ⊢
      simp only [List.foldr_cons]
      rw [ih]
  | swap x y l =>
      simp only [listMin, List.foldr_cons]
      exact minOpt_left_comm y x _
  | trans _ _ ih1 ih2 => exact ih1.trans ih2

theorem nodup_firstDedupAux {α : Type} [DecidableEq α] :
    ∀ (l seen : List α), (firstDedupAux l seen).Nodup := by
  intro l
  induction l with
  | nil => intro seen; simp [firstDedupAux]
  | cons x xs ih =>
      intro seen
      by_cases hx : x ∈ seen
      · rw [firstDedupAux, if_pos hx]
        exact ih seen
      · rw [firstDedupAux, if_neg hx]
        refine List.nodup_cons.mpr ⟨?_, ih (x :: seen)⟩
        intro hmem
        exact ((mem_firstDedupAux x xs (x :: seen)).mp hmem).2 (List.mem_cons_self x seen)

theorem nodup_firstDedup {α : Type} [DecidableEq α] (l : List α) : (firstDedup l).Nodup :=
  nodup_firstDedupAux l []

theorem firstDedup_perm {α : Type} [DecidableEq α] {l l' : List α} (h : l.Perm l') :
    (firstDedup l).Perm (firstDedup l') := by
  rw [List.perm_ext_iff_of_nodup (nodup_firstDedup l) (nodup_firstDedup l')]
  intro a
  rw [mem_firstDedup, mem_firstDedup]
  exact h.mem_iff

theorem sortDedup_perm_eq {l l' : List ℚ} (h : l.Perm l') : sortDedup l = sortDedup l' := by
  have hperm : (sortDedup l).Perm (sortDedup l') :=
    ((List.perm_insertionSort _ (firstDedup l)).trans
      ((firstDedup_perm h).trans (List.perm_insertionSort _ (firstDedup l')).symm))
  exact List.eq_of_perm_of_sorted hperm
    (List.sorted_insertionSort _ _) (List.sorted_insertionSort _ _)

theorem explicitSubsPrices_perm {gv gv' : List RawVariant} (h : gv.Perm gv') :
    (explicitSubsPrices gv).Perm (explicitSubsPrices gv') := by
  unfold explicitSubsPrices
  exact ((h.filter (fun v => v.explicit_sub)).filterMap (fun v => v.price)).filter
    (fun q => decide (q ≠ 0))

theorem explicitOnesPrices_perm {gv gv' : List RawVariant} (h : gv.Perm gv') :
    (explicitOnesPrices gv).Perm (explicitOnesPrices gv') := by
  unfold explicitOnesPrices
  exact ((h.filter (fun v => v.explicit_one)).filterMap (fun v => v.price)).filter
    (fun q => decide (q ≠ 0))

theorem subsPriceOf_perm {gv gv' : List RawVariant} (h : gv.Perm gv') :
    subsPriceOf gv = subsPriceOf gv' := listMax_perm (explicitSubsPrices_perm h)

theorem onePriceOf_perm {gv gv' : List RawVariant} (h : gv.Perm gv') :
    onePriceOf gv = onePriceOf gv' := listMin_perm (explicitOnesPrices_perm h)

theorem groupPricesOf_perm {gv gv' : List RawVariant} (h : gv.Perm gv') :
    groupPricesOf gv = groupPricesOf gv' :=
  sortDedup_perm_eq (h.filterMap (fun v => v.price))

theorem singlePricesOf_perm {gv gv' : List RawVariant} (h : gv.Perm gv') :
    singlePricesOf gv = singlePricesOf gv' :=
  sortDedup_perm_eq ((h.filterMap (fun v => v.price)).filter (fun q => decide (q ≠ 0)))

theorem dailyPair_perm (pname handle : String) {gv gv' : List RawVariant}
    (h : gv.Perm gv') : dailyPair pname handle gv = dailyPair pname handle gv' := by
  rw [dailyPair, dailyPair, groupPricesOf_perm h, subsPriceOf_perm h, onePriceOf_perm h]

/-- Permuting a flavour group changes no field of its resolved record except
(possibly) the pack label, which concatenates the variant titles in input
order. -/
theorem erasePack_groupRecord_perm (pname handle desc imgs flavour : String)
    {gv gv' : List RawVariant} (h : gv.Perm gv') :
    erasePack (groupRecord pname handle desc imgs flavour gv)
      = erasePack (groupRecord pname handle desc imgs flavour gv') := by
  simp only [groupRecord]
  rw [dailyPair_perm pname handle h, singlePricesOf_perm h]
  by_cases hotg : onTheGoB pname <;> simp [hotg, erasePack]

/-- C1 counterexample: swapping the two variants of a product changes the
pack label of its single record (the concatenated variant titles reverse),
so the emitted record multisets differ. -/
theorem C1_counterexample :
    ({ title := some "Zzz Box", handle := some "zzz-box", body_html := none, images := [],
       options := [],
       variants :=
        [{ fid := none, title := some "Bbb", price := some 12, compare_at_price := none,
           option1 := none, option2 := none, option3 := none },
         { fid := none, title := some "Aaa", price := some 10, compare_at_price := none,
           option1 := none, option2 := none, option3 := none }] } : FeedProduct).variants.Perm
      ({ title := some "Zzz Box", handle := some "zzz-box", body_html := none, images := [],
         options := [],
         variants :=
          [{ fid := none, title := some "Aaa", price := some 10, compare_at_price := none,
             option1 := none, option2 := none, option3 := none },
           { fid := none, title := some "Bbb", price := some 12, compare_at_price := none,
             option1 := none, option2 := none, option3 := none }] } : FeedProduct).variants
  ∧ (product_rows
      { title := some "Zzz Box", handle := some "zzz-box", body_html := none, images := [],
        options := [],
        variants :=
          [{ fid := none, title := some "Aaa", price := some 10, compare_at_price := none,
             option1 := none, option2 := none, option3 := none },
           { fid := none, title := some "Bbb", price := some 12, compare_at_price := none,
             option1 := none, option2 := none, option3 := none }] }).map (fun r => r.pack)
      = ["AaaBbb"]
  ∧ (product_rows
      { title := some "Zzz Box", handle := some "zzz-box", body_html := none, images := [],
        options := [],
        variants :=
          [{ fid := none, title := some "Bbb", price := some 12, compare_at_price := none,
             option1 := none, option2 := none, option3 := none },
           { fid := none, title := some "Aaa", price := some 10, compare_at_price := none,
             option1 := none, option2 := none, option3 := none }] }).map (fun r => r.pack)
      = ["BbbAaa"]
  ∧ ¬ (product_rows
      { title := some "Zzz Box", handle := some "zzz-box", body_html := none, images := [],
        options := [],
        variants :=
          [{ fid := none, title := some "Bbb", price := some 12, compare_at_price := none,
             option1 := none, option2 := none, option3 := none },
           { fid := none, title := some "Aaa", price := some 10, compare_at_price := none,
             option1 := none, option2 := none, option3 := none }] }).Perm
      (product_rows
      { title := some "Zzz Box", handle := some "zzz-box", body_html := none, images := [],
        options := [],
        variants :=
          [{ fid := none, title := some "Aaa", price := some 10, compare_at_price := none,
             option1 := none, option2 := none, option3 := none },
           { fid := none, title := some "Bbb", price := some 12, compare_at_price := none,
             option1 := none, option2 := none, option3 := none }] }) := by
  refine ⟨List.Perm.swap _ _ _, by decide, by decide, ?_⟩
  intro h
  have h2 := h.map (fun r => r.pack)
  rw [show (product_rows
      { title := some "Zzz Box", handle := some "zzz-box", body_html := none, images := [],
        options := [],
        variants :=
          [{ fid := none, title := some "Bbb", price := some 12, compare_at_price := none,
             option1 := none, option2 := none, option3 := none },
           { fid := none, title := some "Aaa", price := some 10, compare_at_price := none,
             option1 := none, option2 := none, option3 := none }] }).map (fun r => r.pack)
      = ["BbbAaa"] by decide] at h2
  rw [show (product_rows
      { title := some "Zzz Box", handle := some "zzz-box", body_html := none, images := [],
        options := [],
        variants :=
          [{ fid := none, title := some "Aaa", price := some 10, compare_at_price := none,
             option1 := none, option2 := none, option3 := none },
           { fid := none, title := some "Bbb", price := some 12, compare_at_price := none,
             option1 := none, option2 := none, option3 := none }] }).map (fun r => r.pack)
      = ["AaaBbb"] by decide] at h2
  exact absurd (List.perm_singleton.mp h2) (by decide)

/-- C1 (amended): permuting a product's variant list leaves the multiset of
emitted records unchanged once the order-sensitive pack label is erased:
grouping, price aggregation, all overrides and the purchase type are
order-independent; only the pack label (built from the concatenation of the
variant titles in input order) and the emission order of groups may vary. -/
theorem product_rows_promo (p : FeedProduct)
    (h : promoB (p.title.getD "N/A") (p.handle.getD "") = true) : product_rows p = [] := by
  simp [product_rows, h]

theorem product_rows_shot (p : FeedProduct)
    (h1 : promoB (p.title.getD "N/A") (p.handle.getD "") = false)
    (h2 : shotGlassB (p.title.getD "N/A") = true) :
    product_rows p = (variant_list (p.title.getD "N/A") p.options p.variants).map
      (shotRecord (p.title.getD "N/A") (descOf (p.title.getD "N/A") p.body_html)
        (imagesStrOf p.images) (p.handle.getD "")) := by
  simp [product_rows, h1, h2]

theorem product_rows_general (p : FeedProduct)
    (h1 : promoB (p.title.getD "N/A") (p.handle.getD "") = false)
    (h2 : shotGlassB (p.title.getD "N/A") = false) :
    product_rows p =
      (firstDedup ((variant_list (p.title.getD "N/A") p.options p.variants).map
        flavourOf)).map
        (fun f => groupRecord (p.title.getD "N/A") (p.handle.getD "")
          (descOf (p.title.getD "N/A") p.body_html) (imagesStrOf p.images) f
          ((variant_list (p.title.getD "N/A") p.options p.variants).filter
            (fun v => flavourOf v == f))) := by
  simp [product_rows, h1, h2]

/-- The general (grouped) path is permutation-invariant up to the pack
label. -/
theorem rows_general_perm (pn hd de im : String) (opts : List String)
    {vars vars' : List FeedVariant} (h : vars'.Perm vars) :
    ((firstDedup ((variant_list pn opts vars').map flavourOf)).map
      (fun f => erasePack (groupRecord pn hd de im f
        ((variant_list pn opts vars').filter (fun v => flavourOf v == f))))).Perm
    ((firstDedup ((variant_list pn opts vars).map flavourOf)).map
      (fun f => erasePack (groupRecord pn hd de im f
        ((variant_list pn opts vars).filter (fun v => flavourOf v == f))))) := by
  have hvl : (variant_list pn opts vars').Perm (variant_list pn opts vars) :=
    h.map (mkRawVariant pn opts)
  have hfun : (fun f => erasePack (groupRecord pn hd de im f
        ((variant_list pn opts vars').filter (fun v => flavourOf v == f))))
      = (fun f => erasePack (groupRecord pn hd de im f
        ((variant_list pn opts vars).filter (fun v => flavourOf v == f)))) := by
    funext f
    exact erasePack_groupRecord_perm pn hd de im f
      (hvl.filter (fun v => flavourOf v == f))
  rw [hfun]
  exact (firstDedup_perm (hvl.map flavourOf)).map _

theorem C1_resolution_order_independent_up_to_pack :
    ∀ (p : FeedProduct) (vs' : List FeedVariant), vs'.Perm p.variants →
      ((product_rows { p with variants := vs' }).map erasePack).Perm
        ((product_rows p).map erasePack) := by
  intro p vs' hperm
  cases hpromo : promoB (p.title.getD "N/A") (p.handle.getD "") with
  | true =>
      rw [product_rows_promo { p with variants := vs' } hpromo,
        product_rows_promo p hpromo]
  | false =>
      cases hshot : shotGlassB (p.title.getD "N/A") with
      | true =>
          rw [product_rows_shot { p with variants := vs' } hpromo hshot,
            product_rows_shot p hpromo hshot]
          rw [List.map_map, List.map_map]
          exact (hperm.map (mkRawVariant (p.title.getD "N/A") p.options)).map _
      | false =>
          rw [product_rows_general { p with variants := vs' } hpromo hshot,
            product_rows_general p hpromo hshot]
          rw [List.map_map, List.map_map]
          exact rows_general_perm (p.title.getD "N/A") (p.handle.getD "")
            (descOf (p.title.getD "N/A") p.body_html) (imagesStrOf p.images)
            p.options hperm

/-- Closed instantiation of `C1_resolution_order_independent_up_to_pack`. -/
theorem C1_witness :
    ((product_rows
      { title := some "Zzz Box", handle := some "zzz-box", body_html := none, images := [],
        options := [],
        variants :=
          [{ fid := none, title := some "Bbb", price := some 12, compare_at_price := none,
             option1 := none, option2 := none, option3 := none },
           { fid := none, title := some "Aaa", price := some 10, compare_at_price := none,
             option1 := none, option2 := none, option3 := none }] }).map erasePack).Perm
      ((product_rows
      { title := some "Zzz Box", handle := some "zzz-box", body_html := none, images := [],
        options := [],
        variants :=
          [{ fid := none, title := some "Aaa", price := some 10, compare_at_price := none,
             option1 := none, option2 := none, option3 := none },
           { fid := none, title := some "Bbb", price := some 12, compare_at_price := none,
             option1 := none, option2 := none, option3 := none }] }).map erasePack) :=
  C1_resolution_order_independent_up_to_pack
    { title := some "Zzz Box", handle := some "zzz-box", body_html := none, images := [],
      options := [],
      variants :=
        [{ fid := none, title := some "Aaa", price := some 10, compare_at_price := none,
           option1 := none, option2 := none, option3 := none },
         { fid := none, title := some "Bbb", price := some 12, compare_at_price := none,
           option1 := none, option2 := none, option3 := none }] }
    [{ fid := none, title := some "Bbb", price := some 12, compare_at_price := none,
       option1 := none, option2 := none, option3 := none },
     { fid := none, title := some "Aaa", price := some 10, compare_at_price := none,
       option1 := none, option2 := none, option3 := none }]
    (List.Perm.swap _ _ _)

/-- Closed instantiation of `C3_daily_override`. -/
theorem C3_witness :
    (groupRecord "Daily" "" "" "" "Default"
        [{ vid := none, combined := "", options := [], title := "", price := some 20,
           compare := none, explicit_sub := false, explicit_one := false },
         { vid := none, combined := "", options := [], title := "", price := some 18,
           compare := none, explicit_sub := false, explicit_one := false }]).oneTimePrice
      = fmt (some 18) := by
  exact (C3_daily_override.2 "Daily" "" "" "" "Default" _ 18 20
    (by decide) (by decide) (by decide)).1
